import Mathlib

/-!
# Verification of the ShelfLife receipt-ingestion pipeline

A shallow embedding of the receipt-ingestion pipeline of the ShelfLife
backend (`app/services/ocr_service.py`, `app/services/receipt_service.py`,
`app/services/ml_service.py`, `app/routers/receipts.py`), together with
theorems settling the behavioural claims about it.

Modelling conventions:
* Python strings are modelled as `String` / `List Char`; the ASCII subset of
  Python whitespace, digit and word-character classes is used (all inputs the
  pipeline handles are ASCII: the OCR layer is configured with an ASCII
  whitelist).
* Python floats are modelled as exact rationals `ℚ`; `datetime` values are
  modelled as integer day numbers; `timedelta(days = n)` is integer addition.
* Fallible external calls (image decoding + OCR) are modelled as an
  `Except String` input; database writes are modelled as explicit state
  passing over `DbState` with a per-commit fault-injection point.
-/

set_option autoImplicit false

namespace ShelfLife

/-! ## Python character classes and string primitives -/

/-- ASCII whitespace, as matched by Python `str.strip()` and the regex class
used by `re.sub` in the services (space, tab, newline, carriage
return, vertical tab, form feed). -/
def isPySpace (c : Char) : Bool :=
  c = ' ' || c = '\t' || c = '\n' || c = '\r' || c = Char.ofNat 11 || c = Char.ofNat 12

/-- Python `str.strip()`: drop leading and trailing whitespace. -/
def pyStrip (cs : List Char) : List Char :=
  ((cs.dropWhile isPySpace).reverse.dropWhile isPySpace).reverse

/-- Python `str.isdigit()` restricted to ASCII: nonempty and all digits. -/
def pyIsDigitStr (cs : List Char) : Bool :=
  !cs.isEmpty && cs.all Char.isDigit

/-- Python `str.lower()` on a character list (ASCII). -/
def toLowerList (cs : List Char) : List Char :=
  cs.map Char.toLower

/-- Python `str.lower()` on a string (ASCII). -/
def lowerStr (s : String) : String :=
  String.mk (toLowerList s.data)

/-- `needle in hay` for Python strings: substring occurrence. -/
def containsSub (needle : List Char) : List Char → Bool
  | [] => needle.isEmpty
  | c :: rest => needle.isPrefixOf (c :: rest) || containsSub needle rest

/-- Decimal value of a digit list (most significant first). -/
def digitsToNat (ds : List Char) : Nat :=
  ds.foldl (fun a c => a * 10 + (c.toNat - '0'.toNat)) 0

/-- Regex word character (`\w`), ASCII: letters, digits and underscore. -/
def isWordChar (c : Char) : Bool :=
  c.isAlphanum || c = '_'

/-- A regex word boundary `\b` sits between two (optional) characters exactly
when one side is a word character and the other is not (string edges count as
non-word). -/
def boundary (a b : Option Char) : Bool :=
  (a.elim false isWordChar) != (b.elim false isWordChar)

/-- One step of `re.sub(r'\s+', ' ', text)`: each maximal whitespace run is
replaced by a single space; `prevSpace` records whether the previous original
character was whitespace (the run already emitted its space). -/
def collapseWsAux (prevSpace : Bool) : List Char → List Char
  | [] => []
  | c :: rest =>
    if isPySpace c then
      (if prevSpace then [] else [' ']) ++ collapseWsAux true rest
    else c :: collapseWsAux false rest

/-- `re.sub(r'\s+', ' ', text)`: collapse every whitespace run to one space. -/
def collapseWs (cs : List Char) : List Char :=
  collapseWsAux false cs

/-- First alternative of `alts` that matches at the current position of
`re.sub(r'\b(alt1|alt2|...)\b', '', s)`: it must be a nonempty prefix of the
remaining input with a word boundary on both sides (`prev` is the previous
original character, if any). -/
def findWordAlt (alts : List (List Char)) (prev : Option Char) (s : List Char) :
    Option (List Char) :=
  alts.find? fun a =>
    !a.isEmpty && a.isPrefixOf s && boundary prev s.head? &&
      boundary a.getLast? (s.drop a.length).head?

/-- Scanning core of `re.sub(r'\b(...)\b', '', s)`: delete every
non-overlapping, leftmost match, alternatives tried in order at each
position.  Lookaround (`\b`) is evaluated against the original input, so the
previous *original* character is threaded through.  `fuel` bounds the scan;
each step consumes at least one character, so `fuel = s.length` is exact. -/
def subWordDeleteAux (alts : List (List Char)) : Nat → Option Char → List Char → List Char
  | 0, _, s => s
  | _ + 1, _, [] => []
  | fuel + 1, prev, c :: rest =>
    match findWordAlt alts prev (c :: rest) with
    | some a => subWordDeleteAux alts fuel a.getLast? ((c :: rest).drop a.length)
    | none => c :: subWordDeleteAux alts fuel (some c) rest

/-- `re.sub(r'\b(alt1|alt2|...)\b', '', s)` with constant alternatives. -/
def subWordDelete (alts : List (List Char)) (s : List Char) : List Char :=
  subWordDeleteAux alts s.length none s

/-- Does `\btok\b` occur anywhere in `s` (`re.search`)?  `prev` is the
character preceding the current position, if any. -/
def hasWordTokenAux (tok : List Char) : Option Char → List Char → Bool
  | _, [] => false
  | prev, c :: rest =>
    (tok.isPrefixOf (c :: rest) && boundary prev (some c) &&
      boundary tok.getLast? (((c :: rest).drop tok.length).head?))
    || hasWordTokenAux tok (some c) rest

/-- `re.search(r'\btok\b', s) is not None` for a constant token. -/
def hasWordToken (tok : List Char) (s : List Char) : Bool :=
  hasWordTokenAux tok none s

/-- Python `str.title()`: uppercase every cased character that follows a
non-alphabetic character, lowercase the rest. -/
def pyTitleAux (prevAlpha : Bool) : List Char → List Char
  | [] => []
  | c :: rest =>
    (if c.isAlpha then (if prevAlpha then c.toLower else c.toUpper) else c)
      :: pyTitleAux c.isAlpha rest

/-- Python `str.title()`. -/
def pyTitle (s : String) : String :=
  String.mk (pyTitleAux false s.data)

/-- Python's `split('\n')`: split at every newline, keeping empty pieces;
`''.split('\n') == ['']`. -/
def splitLines : List Char → List (List Char)
  | [] => [[]]
  | c :: rest =>
    match splitLines rest with
    | [] => [[]]
    | l :: ls => if c = '\n' then [] :: l :: ls else (c :: l) :: ls

end ShelfLife

namespace ShelfLife

/-! ## OCR service (`app/services/ocr_service.py`)

`OCRService.extract_text` runs Tesseract over the (preprocessed) image and
post-processes the per-token output.  The external part — decoding the image
and running Tesseract — is modelled as an `Except String (List OcrToken)`
input: `.ok` carries the per-token confidence/text table (the `conf` and
`text` columns of `pytesseract.image_to_data`), `.error` stands for any
exception raised inside the `try` block (in particular `cv2.imread` returning
`None` for an undecodable path, which makes `cv2.cvtColor` throw). -/

/-- One row of the Tesseract data table: a token with its confidence
(0–100 scale, `-1` for non-text blocks). -/
structure OcrToken where
  conf : ℚ
  text : String
deriving DecidableEq

/-- `OCRService._filter_low_confidence_text`: keep tokens with confidence
strictly above 30, strip each, drop empties, join with single spaces. -/
def filterLowConfidenceText (toks : List OcrToken) : String :=
  let parts := toks.filterMap fun t =>
    if 30 < t.conf then
      (let s := pyStrip t.text.data
       if s.isEmpty then none else some (String.mk s))
    else none
  String.intercalate " " parts

/-- `re.sub(r'[|]', 'I', text)`: every pipe becomes the letter I. -/
def fixPipes (cs : List Char) : List Char :=
  cs.map fun c => if c = '|' then 'I' else c

/-- `re.sub(r'[0O](?=\d)', '0', text)`: a `0` or `O` directly followed by a
digit (in the original string) becomes `0`. -/
def fixOBefore : List Char → List Char
  | [] => []
  | [c] => [c]
  | c1 :: c2 :: rest =>
    (if (c1 = '0' || c1 = 'O') && c2.isDigit then '0' else c1)
      :: fixOBefore (c2 :: rest)

/-- Scanner for `re.sub(r'(?<=\d)[0O]', '0', text)`: `prev` is the previous
character of the *input* string (lookbehind is evaluated against the string
being scanned, not against earlier replacements). -/
def fixOAfterAux (prev : Char) : List Char → List Char
  | [] => []
  | c :: rest =>
    (if (c = '0' || c = 'O') && prev.isDigit then '0' else c)
      :: fixOAfterAux c rest

/-- `re.sub(r'(?<=\d)[0O]', '0', text)`. -/
def fixOAfter : List Char → List Char
  | [] => []
  | c :: rest => c :: fixOAfterAux c rest

/-- `OCRService._clean_extracted_text`: collapse whitespace runs and strip,
then apply the three OCR-confusion fixes in order. -/
def cleanExtractedText (text : String) : String :=
  String.mk (fixOAfter (fixOBefore (fixPipes (pyStrip (collapseWs text.data)))))

/-- Result record of `OCRService.extract_text` (schema `OCRResult`). -/
structure OCRResult where
  text : String
  confidence : ℚ
  processingTimeMs : Int
deriving DecidableEq

/-- `OCRService.extract_text`.  On `.ok` data: filter tokens below the keep
threshold, clean the joined text, and report the mean of all confidences
strictly above zero, divided by 100.  On `.error` (any exception inside the
`try` block, e.g. an undecodable image): return empty text with confidence
0.0 instead of propagating — the function never raises. -/
def extractText (ocrOutcome : Except String (List OcrToken)) (elapsedMs : Int) :
    OCRResult :=
  match ocrOutcome with
  | .error _ => { text := "", confidence := 0, processingTimeMs := elapsedMs }
  | .ok toks =>
    let filtered := filterLowConfidenceText toks
    let cleaned := cleanExtractedText filtered
    let confs := (toks.map OcrToken.conf).filter fun c => 0 < c
    let avg : ℚ := if confs.isEmpty then 0 else confs.sum / confs.length
    { text := cleaned, confidence := avg / 100, processingTimeMs := elapsedMs }

end ShelfLife

namespace ShelfLife

/-! ## Line parser (`app/services/receipt_service.py`)

`ReceiptService.parse_receipt_items` splits the OCR text on newlines, drops
noise lines, and runs `_extract_item_info` on each remaining line.  The three
price patterns are anchored `re.match` regexes over pre-stripped lines (so
`$` coincides with end of input); their lazy `(.+?)` groups are embedded by
enumerating candidate name prefixes shortest-first, exactly the backtracking
order of the regex engine. -/

/-- Full match of `\d+\.\d{2}` against the whole input (the price group of
the patterns, anchored at `$`), returning the exact decimal value that
Python's `float()` parses from the matched text. -/
def matchPriceFull (cs : List Char) : Option ℚ :=
  let intDigits := cs.takeWhile Char.isDigit
  if intDigits.isEmpty then none
  else
    match cs.drop intDigits.length with
    | '.' :: d1 :: d2 :: [] =>
      if d1.isDigit && d2.isDigit then
        some ((digitsToNat intDigits : ℚ) + (digitsToNat [d1, d2] : ℚ) / 100)
      else none
    | _ => none

/-- Full match of `\$(\d+\.\d{2})` against the whole input. -/
def matchDollarPriceFull : List Char → Option ℚ
  | '$' :: rest => matchPriceFull rest
  | _ => none

/-- Lazy-group matcher for `(.+?)\s+<tail>$`: grow the name one character at
a time (shortest first, the backtracking order of a lazy group); after each
candidate name, `\s+` greedily takes the whole following whitespace run —
the tail pattern starts with a non-whitespace character, so no shorter run
can match — and `tailMatch` must consume the rest.  `.` does not match a
newline, so a newline aborts the scan. -/
def lazyNameSplit (tailMatch : List Char → Option ℚ) (acc : List Char) :
    List Char → Option (List Char × ℚ)
  | [] => none
  | c :: rest =>
    if c = '\n' then none
    else
      let name := acc ++ [c]
      let ws := rest.takeWhile isPySpace
      match (if ws.isEmpty then none else tailMatch (rest.drop ws.length)) with
      | some p => some (name, p)
      | none => lazyNameSplit tailMatch name rest

/-- Backtracking of a greedy `\s+` followed by a lazy name group: try the
inner matcher with the whitespace run fully consumed first, then give back
one whitespace character at a time (the regex engine's order for
`\s+(.+?)...`).  `ws` is the whitespace run, `tail` the input after it; step
`m` runs the inner matcher on `ws.drop m ++ tail` for `m = ws.length, …, 1`. -/
def tryShrinkWs {α : Type} (inner : List Char → Option α) (ws tail : List Char) :
    Nat → Option α
  | 0 => none
  | m + 1 =>
    match inner (ws.drop (m + 1) ++ tail) with
    | some r => some r
    | none => tryShrinkWs inner ws tail m

/-- `re.match(r'^(\d+)\s+(.+?)\s+(\d+\.\d{2})$', line)` — pattern 1 of
`_extract_item_info`.  The greedy `\d+` always captures the maximal leading
digit run (backtracking it would place a digit where `\s+` must match);
returns (quantity digits, raw name group, price). -/
def matchQtyNamePrice (cs : List Char) : Option (List Char × List Char × ℚ) :=
  let qty := cs.takeWhile Char.isDigit
  if qty.isEmpty then none
  else
    let rest := cs.drop qty.length
    let ws := rest.takeWhile isPySpace
    match tryShrinkWs (lazyNameSplit matchPriceFull []) ws (rest.drop ws.length) ws.length with
    | some (n, p) => some (qty, n, p)
    | none => none

/-- `re.match(r'^(.+?)\s+(\d+\.\d{2})$', line)` — pattern 2. -/
def matchNamePrice (cs : List Char) : Option (List Char × ℚ) :=
  lazyNameSplit matchPriceFull [] cs

/-- `re.match(r'^(.+?)\s+\$(\d+\.\d{2})$', line)` — pattern 3. -/
def matchNameDollarPrice (cs : List Char) : Option (List Char × ℚ) :=
  lazyNameSplit matchDollarPriceFull [] cs

/-- The dict returned by `ReceiptService._extract_item_info`. -/
structure ItemInfo where
  quantity : Option String
  name : String
  price : Option ℚ
  confidence : ℚ
deriving DecidableEq

/-- `ReceiptService._extract_item_info`: try pattern 1 (confidence 0.9), then
pattern 2 and pattern 3 (confidence 0.8), then accept any line longer than 3
characters that is not all digits as a name-only candidate (confidence 0.5). -/
def extractItemInfo (line : List Char) : Option ItemInfo :=
  match matchQtyNamePrice line with
  | some (q, n, p) =>
    some { quantity := some (String.mk q), name := String.mk (pyStrip n),
           price := some p, confidence := 9/10 }
  | none =>
    match matchNamePrice line with
    | some (n, p) =>
      some { quantity := none, name := String.mk (pyStrip n),
             price := some p, confidence := 8/10 }
    | none =>
      match matchNameDollarPrice line with
      | some (n, p) =>
        some { quantity := none, name := String.mk (pyStrip n),
               price := some p, confidence := 8/10 }
      | none =>
        if 3 < line.length && !pyIsDigitStr line then
          some { quantity := none, name := String.mk (pyStrip line),
                 price := none, confidence := 1/2 }
        else none

/-- Noise keywords of `ReceiptService._is_non_item_line`. -/
def nonItemKeywords : List String :=
  ["receipt", "thank you", "total", "subtotal", "tax", "change",
   "cashier", "store", "phone", "address", "date", "time",
   "balance", "payment", "visa", "mastercard", "cash",
   "tender", "refund", "discount", "coupon", "save",
   "member", "rewards", "points", "expires", "valid"]

/-- `ReceiptService._is_non_item_line`: the lower-cased line contains one of
the noise keywords as a substring. -/
def isNonItemLine (line : List Char) : Bool :=
  nonItemKeywords.any fun kw => containsSub kw.data (toLowerList line)

/-- Ordered category→keyword table of `ReceiptService._categorize_item`
(Python dicts iterate in insertion order). -/
def categoriesTable : List (String × List String) :=
  [("dairy", ["milk", "cheese", "yogurt", "butter", "cream"]),
   ("meat", ["chicken", "beef", "pork", "turkey", "fish", "salmon"]),
   ("vegetables", ["lettuce", "spinach", "carrot", "broccoli", "tomato"]),
   ("fruits", ["banana", "apple", "orange", "grape", "berry"]),
   ("bakery", ["bread", "roll", "bagel", "muffin", "cake"]),
   ("pantry", ["pasta", "rice", "bean", "cereal", "soup", "sauce"])]

/-- `ReceiptService._categorize_item`: lower-case the name, return the first
category with a keyword substring match, default `"pantry"`. -/
def categorizeItem (itemName : String) : String :=
  let lower := toLowerList itemName.data
  match categoriesTable.find? (fun ck => ck.2.any fun kw => containsSub kw.data lower) with
  | some (cat, _) => cat
  | none => "pantry"

/-- The pipeline-internal parsed line item (schema `ParsedReceiptItem` as
populated and consumed by `ReceiptService`): the service sets `name`,
`quantity` (raw token string), `price`, `category` and `confidence` at parse
time, and the orchestrator fills `estimated_expiry_date` later. -/
structure ParsedReceiptItem where
  name : String
  quantity : Option String
  price : Option ℚ
  category : String
  confidence : ℚ
  estimatedExpiryDate : Option Int := none
deriving DecidableEq

/-- Per-line body of the `parse_receipt_items` loop: strip the line, skip it
when empty or shorter than 3 characters or a noise line, otherwise run
`_extract_item_info` and attach the category from `_categorize_item`. -/
def parseLine (rawLine : List Char) : Option ParsedReceiptItem :=
  let line := pyStrip rawLine
  if line.isEmpty || line.length < 3 then none
  else if isNonItemLine line then none
  else
    match extractItemInfo line with
    | none => none
    | some info =>
      some { name := info.name, quantity := info.quantity, price := info.price,
             category := categorizeItem info.name, confidence := info.confidence }

/-- `ReceiptService.parse_receipt_items`: split the OCR text on newlines and
collect the parsed items in line order. -/
def parseReceiptItems (ocrText : String) : List ParsedReceiptItem :=
  (splitLines ocrText.data).filterMap parseLine

/-- Value of the first match of `\d+\.?\d*` starting at the head of the
input: maximal digit run, optional dot, maximal fraction run (what
`re.findall(r'\d+\.?\d*', s)[0]` yields when the input starts with a digit),
as parsed by Python `float()`. -/
def munchNumber (cs : List Char) : ℚ :=
  let ds := cs.takeWhile Char.isDigit
  match cs.drop ds.length with
  | '.' :: r2 =>
    let fs := r2.takeWhile Char.isDigit
    (digitsToNat ds : ℚ) + (digitsToNat fs : ℚ) / ((10 : ℚ) ^ fs.length)
  | _ => (digitsToNat ds : ℚ)

/-- First number in the string (`re.findall(r'\d+\.?\d*', s)`, first hit):
scan to the first digit, then munch greedily. -/
def findFirstNumber : List Char → Option ℚ
  | [] => none
  | c :: rest =>
    if c.isDigit then some (munchNumber (c :: rest)) else findFirstNumber rest

/-- `ReceiptService._parse_quantity`: first number in the quantity token,
default 1.0 (also for a falsy argument). -/
def parseQuantity (quantityStr : Option String) : ℚ :=
  match quantityStr with
  | none => 1
  | some s => (findFirstNumber s.data).getD 1

/-- Ordered unit patterns of `ReceiptService._parse_unit`: each entry is the
list of word-boundary tokens of one regex alternation and the unit it maps
to (Python dicts iterate in insertion order). -/
def unitPatterns : List (List String × String) :=
  [(["lb", "pound"], "lb"),
   (["oz", "ounce"], "oz"),
   (["kg", "kilogram"], "kg"),
   (["g", "gram"], "g"),
   (["ml", "milliliter"], "ml"),
   (["l", "liter"], "l"),
   (["gal", "gallon"], "gallon"),
   (["qt", "quart"], "quart"),
   (["pt", "pint"], "pint"),
   (["pack", "pkg"], "pack"),
   (["box", "package"], "box"),
   (["bag"], "bag"),
   (["can"], "can"),
   (["bottle"], "bottle")]

/-- `ReceiptService._parse_unit`: first unit whose pattern matches the
lower-cased quantity token, default `"item"` (also for a falsy argument). -/
def parseUnit (quantityStr : Option String) : String :=
  match quantityStr with
  | none => "item"
  | some s =>
    let lower := toLowerList s.data
    match unitPatterns.find? (fun pu => pu.1.any fun tok => hasWordToken tok.data lower) with
    | some (_, unit) => unit
    | none => "item"

end ShelfLife

namespace ShelfLife

/-! ## Expiry predictor (`app/services/ml_service.py`)

`MLService` holds a static shelf-life reference table and predicts an expiry
date per item.  The optional learned model is modelled by the boolean
`modelPresent` (whether `self.model` is loaded); dates are integer day
numbers and `datetime.now()` is the explicit `now` argument. -/

/-- `MLService._load_shelf_life_database`: category → food name → storage
location → shelf-life days (association lists in Python dict insertion
order). -/
def shelfLifeDatabase : List (String × List (String × List (String × Int))) :=
  [("dairy",
    [("milk", [("pantry", 1), ("refrigerator", 7), ("freezer", 90)]),
     ("yogurt", [("pantry", 1), ("refrigerator", 14), ("freezer", 60)]),
     ("cheese", [("pantry", 1), ("refrigerator", 30), ("freezer", 180)]),
     ("butter", [("pantry", 2), ("refrigerator", 60), ("freezer", 365)]),
     ("cream", [("pantry", 1), ("refrigerator", 10), ("freezer", 90)])]),
   ("meat",
    [("chicken", [("pantry", 0), ("refrigerator", 2), ("freezer", 365)]),
     ("beef", [("pantry", 0), ("refrigerator", 3), ("freezer", 365)]),
     ("pork", [("pantry", 0), ("refrigerator", 3), ("freezer", 180)]),
     ("fish", [("pantry", 0), ("refrigerator", 2), ("freezer", 180)]),
     ("ground_meat", [("pantry", 0), ("refrigerator", 1), ("freezer", 120)])]),
   ("vegetables",
    [("lettuce", [("pantry", 1), ("refrigerator", 7), ("freezer", 30)]),
     ("spinach", [("pantry", 1), ("refrigerator", 5), ("freezer", 30)]),
     ("carrots", [("pantry", 3), ("refrigerator", 30), ("freezer", 365)]),
     ("potatoes", [("pantry", 30), ("refrigerator", 60), ("freezer", 365)]),
     ("tomatoes", [("pantry", 7), ("refrigerator", 14), ("freezer", 90)]),
     ("onions", [("pantry", 30), ("refrigerator", 60), ("freezer", 180)])]),
   ("fruits",
    [("bananas", [("pantry", 5), ("refrigerator", 7), ("freezer", 180)]),
     ("apples", [("pantry", 14), ("refrigerator", 60), ("freezer", 365)]),
     ("oranges", [("pantry", 7), ("refrigerator", 30), ("freezer", 365)]),
     ("berries", [("pantry", 1), ("refrigerator", 7), ("freezer", 365)]),
     ("grapes", [("pantry", 3), ("refrigerator", 14), ("freezer", 365)])]),
   ("bakery",
    [("bread", [("pantry", 3), ("refrigerator", 7), ("freezer", 90)]),
     ("rolls", [("pantry", 2), ("refrigerator", 5), ("freezer", 90)]),
     ("bagels", [("pantry", 3), ("refrigerator", 7), ("freezer", 180)]),
     ("croissants", [("pantry", 1), ("refrigerator", 3), ("freezer", 60)])]),
   ("pantry",
    [("pasta", [("pantry", 730), ("refrigerator", 730), ("freezer", 730)]),
     ("rice", [("pantry", 1095), ("refrigerator", 1095), ("freezer", 1095)]),
     ("beans", [("pantry", 365), ("refrigerator", 365), ("freezer", 365)]),
     ("cereal", [("pantry", 180), ("refrigerator", 180), ("freezer", 180)]),
     ("crackers", [("pantry", 90), ("refrigerator", 90), ("freezer", 90)])])]

/-- The per-category/per-storage default table of
`MLService._get_shelf_life_from_database`. -/
def shelfLifeDefaults : List (String × List (String × Int)) :=
  [("dairy", [("pantry", 1), ("refrigerator", 7), ("freezer", 90)]),
   ("meat", [("pantry", 0), ("refrigerator", 2), ("freezer", 180)]),
   ("vegetables", [("pantry", 3), ("refrigerator", 14), ("freezer", 90)]),
   ("fruits", [("pantry", 5), ("refrigerator", 14), ("freezer", 180)]),
   ("bakery", [("pantry", 3), ("refrigerator", 7), ("freezer", 90)]),
   ("pantry", [("pantry", 365), ("refrigerator", 365), ("freezer", 365)])]

/-- Descriptor words stripped by `MLService._normalize_product_name`
(the alternation of its first `re.sub`, in order). -/
def descriptorWords : List String :=
  ["organic", "fresh", "frozen", "canned", "whole", "low fat", "fat free", "2%", "skim"]

/-- Brand tokens stripped by `MLService._normalize_product_name` (the input
is already lower-cased, so the `re.IGNORECASE` flag is moot). -/
def brandWords : List String :=
  ["kraft", "nestle", "pepsi", "coca cola", "kellogs", "general mills", "unilever"]

/-- `MLService._normalize_product_name`: lower-case and strip, delete
descriptor words and brand tokens at word boundaries, collapse whitespace,
strip. -/
def normalizeProductName (productName : String) : String :=
  let n0 := pyStrip (toLowerList productName.data)
  let n1 := subWordDelete (descriptorWords.map String.data) n0
  let n2 := subWordDelete (brandWords.map String.data) n1
  String.mk (pyStrip (collapseWs n2))

/-- Ordered category→keyword table of `MLService._determine_category`. -/
def mlCategoryKeywords : List (String × List String) :=
  [("dairy", ["milk", "cheese", "yogurt", "butter", "cream", "cottage cheese"]),
   ("meat", ["chicken", "beef", "pork", "turkey", "fish", "salmon", "tuna", "ground"]),
   ("vegetables", ["lettuce", "spinach", "carrot", "broccoli", "tomato", "potato", "onion"]),
   ("fruits", ["banana", "apple", "orange", "grape", "berry", "strawberry", "blueberry"]),
   ("bakery", ["bread", "roll", "bagel", "muffin", "croissant", "bun"]),
   ("pantry", ["pasta", "rice", "bean", "cereal", "cracker", "soup", "sauce"])]

/-- `MLService._determine_category`: first category with a keyword substring
match in the lower-cased name, default `"pantry"`. -/
def determineCategory (productName : String) : String :=
  let lower := toLowerList productName.data
  match mlCategoryKeywords.find? (fun ck => ck.2.any fun kw => containsSub kw.data lower) with
  | some (cat, _) => cat
  | none => "pantry"

/-- `MLService._get_shelf_life_from_database`: exact key match in the
(lower-cased-category) table, else substring match against table keys in
either direction (first key in table order), else the category/storage
default table (unlowered category, as in the source), with 7 as the final
fallback everywhere. -/
def getShelfLifeFromDatabase (normalizedName category storageLocation : String) : Int :=
  let categoryData := (shelfLifeDatabase.lookup (lowerStr category)).getD []
  match categoryData.lookup normalizedName with
  | some shelfLife => (shelfLife.lookup storageLocation).getD 7
  | none =>
    match categoryData.find?
        (fun p => containsSub p.1.data normalizedName.data
          || containsSub normalizedName.data p.1.data) with
    | some (_, shelfLife) => (shelfLife.lookup storageLocation).getD 7
    | none =>
      (((shelfLifeDefaults.lookup category).getD []).lookup storageLocation).getD 7

/-- Python `int()` on a rational: truncation toward zero (float arithmetic of
the source is modelled exactly over `ℚ`). -/
def pyInt (q : ℚ) : Int :=
  if q < 0 then -⌊-q⌋ else ⌊q⌋

/-- `MLService._apply_ml_prediction` (only reached when a model is loaded):
a name containing "organic" scales by 0.8 floored at 1 day; a brand equal to
"premium" or "high quality" scales by 1.2; otherwise the base value stands. -/
def applyMlPrediction (productName : String) (brand : Option String)
    (baseShelfLife : Int) : Int :=
  if containsSub "organic".data (toLowerList productName.data) then
    max 1 (pyInt ((baseShelfLife : ℚ) * (8/10)))
  else if brand.elim false (fun b => lowerStr b = "premium" || lowerStr b = "high quality") then
    pyInt ((baseShelfLife : ℚ) * (12/10))
  else baseShelfLife

/-- Premium-brand substrings of `MLService._apply_brand_adjustments`. -/
def premiumBrands : List String :=
  ["organic valley", "whole foods", "trader joe", "horizon"]

/-- `MLService._apply_brand_adjustments`: a recognized premium-brand
substring scales the shelf life by 1.1 (the `category` argument is unused in
the source). -/
def applyBrandAdjustments (brand : Option String) (category : String)
    (shelfLife : Int) : Int :=
  match brand with
  | none => shelfLife
  | some b =>
    let brandLower := toLowerList b.data
    if premiumBrands.any (fun p => containsSub p.data brandLower) then
      pyInt ((shelfLife : ℚ) * (11/10))
    else shelfLife

/-- `MLService._calculate_confidence`: base 0.5; +0.2 when the category is a
key of the shelf-life table (unlowered, as in the source); +0.3 when the
normalized name is an exact key of that category's entries; +0.1 when a
brand was supplied (Python truthiness: a present, nonempty string); +0.2
when a model is loaded; capped at 1.0. -/
def calculateConfidence (modelPresent : Bool) (productName category : String)
    (brand : Option String) (normalizedName : String) : ℚ :=
  let c1 : ℚ := 1/2
  let c2 := if (shelfLifeDatabase.lookup category).isSome then c1 + 2/10 else c1
  let c3 := if (((shelfLifeDatabase.lookup category).getD []).lookup normalizedName).isSome
            then c2 + 3/10 else c2
  let c4 := if brand.elim false (fun b => b ≠ "") then c3 + 1/10 else c3
  let c5 := if modelPresent then c4 + 2/10 else c4
  min 1 c5

/-- `MLService._get_prediction_factors`: human-readable strings, not used
downstream. -/
def getPredictionFactors (category storageLocation : String)
    (brand : Option String) (normalizedName : String) : List String :=
  (["Category: " ++ pyTitle category, "Storage: " ++ pyTitle storageLocation]
    ++ (match brand with
        | some b => if b ≠ "" then ["Brand: " ++ b] else []
        | none => [])
    ++ (if storageLocation = "refrigerator" then ["Refrigeration extends shelf life"]
        else if storageLocation = "freezer" then ["Freezing significantly extends shelf life"]
        else [])
    ++ (if containsSub "organic".data normalizedName.data then
          ["Organic products may have shorter shelf life"]
        else []))

/-- The record returned by `MLService.predict_expiry` (the fields the service
populates). -/
structure ExpiryPrediction where
  predictedExpiryDate : Int
  confidenceScore : ℚ
  estimatedShelfLifeDays : Int
  factors : List String
deriving DecidableEq

/-- `MLService.predict_expiry`: default the purchase date to `now`, normalize
the name, determine the category when the given one is falsy, look up the
shelf life, apply the model adjustment only when a model is loaded, apply the
brand adjustment, and assemble date, confidence and factors. -/
def predictExpiry (modelPresent : Bool) (now : Int) (productName : String)
    (category : Option String) (brand : Option String) (purchaseDate : Option Int)
    (storageLocation : String) : ExpiryPrediction :=
  let purchase := purchaseDate.getD now
  let normalizedName := normalizeProductName productName
  let cat := match category with
    | some c => if c = "" then determineCategory productName else c
    | none => determineCategory productName
  let base := getShelfLifeFromDatabase normalizedName cat storageLocation
  let adjusted := if modelPresent then applyMlPrediction productName brand base else base
  let final := applyBrandAdjustments brand cat adjusted
  { predictedExpiryDate := purchase + final
    confidenceScore := calculateConfidence modelPresent productName cat brand normalizedName
    estimatedShelfLifeDays := final
    factors := getPredictionFactors cat storageLocation brand normalizedName }

end ShelfLife

namespace ShelfLife

/-! ## Orchestrator (`app/routers/receipts.py`, `process_receipt_async`,
with the persistence helpers of `app/services/receipt_service.py`)

The database is modelled as the state of the one receipt being processed
plus its inventory items; each `ReceiptService` helper is one transaction
(one `commit()`).  `statusWrites` is a ghost trace of the status values the
orchestrator writes, used to state the state-machine claims.

Unhandled exceptions are modelled by an optional `FaultPoint`: an exception
raised at that point of the `try` block, before the corresponding
transaction commits (a failing commit rolls back, so a faulted step leaves
no effect).  Fault points cover the pipeline stages and the two persistence
writes that follow the initial `processing` update; the initial status write
and the `except`-handler's `failed` write are modelled as succeeding. -/

/-- `Receipt.processing_status` values. -/
inductive Status
  | pending
  | processing
  | completed
  | failed
deriving DecidableEq

/-- The receipt row (the columns `process_receipt_async` touches).  Dates are
integer day numbers. -/
structure ReceiptRec where
  userId : String
  filePath : String
  storeName : Option String
  receiptDate : Option Int
  createdAt : Int
  ocrText : Option String
  processingStatus : Status
  processedAt : Option Int
deriving DecidableEq

/-- A persisted inventory item (the columns `save_parsing_results` sets). -/
structure InvItem where
  userId : String
  name : String
  category : String
  quantity : ℚ
  unit : String
  purchasePrice : Option ℚ
  purchaseDate : Int
  storeName : Option String
  predictedExpiryDate : Option Int
  confidenceScore : ℚ
  source : String
  status : String
deriving DecidableEq

/-- Database state for one receipt: the receipt row (if it exists), its
persisted inventory items, and the ghost trace of status writes. -/
structure DbState where
  receipt : Option ReceiptRec
  items : List InvItem
  statusWrites : List Status
deriving DecidableEq

/-- `ReceiptService.create_receipt`: a fresh receipt row in status
`pending` (no items yet). -/
def createReceipt (userId filePath : String) (storeName : Option String)
    (receiptDate : Option Int) (now : Int) : DbState :=
  { receipt := some
      { userId := userId, filePath := filePath, storeName := storeName
        receiptDate := receiptDate, createdAt := now, ocrText := none
        processingStatus := Status.pending, processedAt := none }
    items := [], statusWrites := [] }

/-- `ReceiptService.update_processing_status`: when the receipt row exists,
set its status, stamp `processed_at` with the current time, and commit
(recorded in the ghost trace); a missing row is a silent no-op. -/
def updateProcessingStatus (now : Int) (st : Status) (s : DbState) : DbState :=
  match s.receipt with
  | none => s
  | some r =>
    { s with receipt := some { r with processingStatus := st, processedAt := some now }
             statusWrites := s.statusWrites ++ [st] }

/-- `ReceiptService.update_ocr_text`: set the receipt's OCR text (no-op on a
missing row). -/
def updateOcrText (text : String) (s : DbState) : DbState :=
  match s.receipt with
  | none => s
  | some r => { s with receipt := some { r with ocrText := some text } }

/-- One `InventoryItem` row built by the loop body of
`ReceiptService.save_parsing_results` (`if item.quantity` is Python
truthiness: present and nonempty). -/
def invItemOfParsed (now : Int) (r : ReceiptRec) (item : ParsedReceiptItem) : InvItem :=
  let qtyTruthy := item.quantity.elim false (fun q => q ≠ "")
  { userId := r.userId
    name := item.name
    category := item.category
    quantity := if qtyTruthy then parseQuantity item.quantity else 1
    unit := if qtyTruthy then parseUnit item.quantity else "item"
    purchasePrice := item.price
    purchaseDate := r.receiptDate.getD r.createdAt
    storeName := r.storeName
    predictedExpiryDate := item.estimatedExpiryDate
    confidenceScore := item.confidence
    source := "receipt"
    status := "fresh" }

/-- `ReceiptService.save_parsing_results`: when the receipt row exists, add
one inventory item per parsed item and commit them together in a single
transaction (a missing row is a silent no-op). -/
def saveParsingResults (now : Int) (s : DbState) (newItems : List ParsedReceiptItem) :
    DbState :=
  match s.receipt with
  | none => s
  | some r => { s with items := s.items ++ newItems.map (invItemOfParsed now r) }

/-- Fault-injection points of `process_receipt_async`: an unhandled
exception raised at the given step of the `try` block, after the initial
`processing` write. -/
inductive FaultPoint
  | extract
  | updOcr
  | parse
  | predict
  | save
  | updCompleted
deriving DecidableEq

/-- The environment a single pipeline run observes: the outcome of image
decoding + Tesseract, the OCR timing, whether an ML model is loaded, and
the wall clock. -/
structure PipelineEnv where
  ocrOutcome : Except String (List OcrToken)
  elapsedMs : Int
  modelPresent : Bool
  now : Int

/-- The `except`-handler of `process_receipt_async`: write status `failed`
(stamping `processed_at`). -/
def failRun (now : Int) (s : DbState) : DbState :=
  updateProcessingStatus now Status.failed s

/-- Step 3 of `process_receipt_async`: predict an expiry date for each
parsed item (`predict_expiry(product_name=item.name, category=item.category,
purchase_date=receipt.receipt_date)`; brand is omitted and the storage
location defaults to `"refrigerator"`) and store it on the item. -/
def enhanceItems (env : PipelineEnv) (r : ReceiptRec)
    (parsed : List ParsedReceiptItem) : List ParsedReceiptItem :=
  parsed.map fun item =>
    let pred := predictExpiry env.modelPresent env.now item.name (some item.category)
      none r.receiptDate "refrigerator"
    { item with estimatedExpiryDate := some pred.predictedExpiryDate }

/-- `process_receipt_async`: set `processing`; return early when the receipt
row is missing; run OCR, store the text, parse the items, predict expiry
dates, save the items, and set `completed`.  An exception at `fault` (if
any) skips the rest of the `try` block and runs the handler, which sets
`failed`. -/
def processReceiptAsync (env : PipelineEnv) (fault : Option FaultPoint)
    (s0 : DbState) : DbState :=
  let s1 := updateProcessingStatus env.now Status.processing s0
  match s1.receipt with
  | none => s1
  | some r =>
    if fault = some FaultPoint.extract then failRun env.now s1 else
    let ocr := extractText env.ocrOutcome env.elapsedMs
    if fault = some FaultPoint.updOcr then failRun env.now s1 else
    let s2 := updateOcrText ocr.text s1
    if fault = some FaultPoint.parse then failRun env.now s2 else
    let parsed := parseReceiptItems ocr.text
    if fault = some FaultPoint.predict then failRun env.now s2 else
    let enhanced := enhanceItems env r parsed
    if fault = some FaultPoint.save then failRun env.now s2 else
    let s3 := saveParsingResults env.now s2 enhanced
    if fault = some FaultPoint.updCompleted then failRun env.now s3 else
    updateProcessingStatus env.now Status.completed s3

end ShelfLife

namespace ShelfLife

/-! ## Concrete scenario instances

Fixed inputs used to evaluate the pipeline at specific points (an
undecodable image, a reprocess of a completed receipt, a fault during the
final status write). -/

/-- A freshly uploaded receipt row, still `pending`. -/
def pendingReceiptRow : ReceiptRec :=
  { userId := "user1", filePath := "uploads/missing.jpg", storeName := none
    receiptDate := none, createdAt := 0, ocrText := none
    processingStatus := Status.pending, processedAt := none }

/-- Database state right after upload: the pending receipt, no items. -/
def pendingReceiptState : DbState :=
  { receipt := some pendingReceiptRow, items := [], statusWrites := [] }

/-- Environment for a receipt whose image cannot be decoded: `cv2.imread`
returns `None`, so the preprocessing raises inside the `try` block. -/
def decodeFailEnv : PipelineEnv :=
  { ocrOutcome := Except.error "cvtColor: src is None", elapsedMs := 3
    modelPresent := false, now := 1 }

/-- A receipt that already completed a first processing run. -/
def completedReceiptState : DbState :=
  { receipt := some { pendingReceiptRow with
      processingStatus := Status.completed, processedAt := some 1 }
    items := [], statusWrites := [] }

/-- Environment for a reprocess run (OCR yields no tokens). -/
def reprocessEnv : PipelineEnv :=
  { ocrOutcome := Except.ok [], elapsedMs := 1, modelPresent := false, now := 5 }

/-- A pending receipt with a known purchase date. -/
def datedReceiptState : DbState :=
  { receipt := some { pendingReceiptRow with
      storeName := some "Safeway", receiptDate := some 100 }
    items := [], statusWrites := [] }

/-- Environment whose OCR yields the tokens of a one-item receipt
(`"MILK 3.49"`). -/
def milkEnv : PipelineEnv :=
  { ocrOutcome := Except.ok [{ conf := 80, text := "MILK" }, { conf := 75, text := "3.49" }]
    elapsedMs := 2, modelPresent := false, now := 10 }

/-- The shelf-life row of the exact table key `"milk"`. -/
def milkShelfLife : List (String × Int) :=
  [("pantry", 1), ("refrigerator", 7), ("freezer", 90)]

end ShelfLife

namespace ShelfLife

/-! ## Helper lemmas -/

/-- Collapsing whitespace never emits a newline: every whitespace run
(newlines included) becomes a single space. -/
theorem newline_not_mem_collapseWsAux (b : Bool) (l : List Char) :
    '\n' ∉ collapseWsAux b l := by
  induction l generalizing b with
  | nil => simp [collapseWsAux]
  | cons c rest ih =>
    by_cases hc : isPySpace c
    · cases b <;> simp [collapseWsAux, hc, ih]
    · simp [collapseWsAux, hc, ih]
      intro h
      rw [← h] at hc
      exact hc (by decide)

/-- Stripping only removes characters. -/
theorem mem_of_mem_pyStrip {c : Char} {l : List Char} (h : c ∈ pyStrip l) : c ∈ l := by
  unfold pyStrip at h
  rw [List.mem_reverse] at h
  replace h := (List.dropWhile_sublist _).subset h
  rw [List.mem_reverse] at h
  exact (List.dropWhile_sublist _).subset h

/-- The pipe fix emits only the letter I or untouched characters. -/
theorem newline_not_mem_fixPipes {l : List Char} (h : '\n' ∉ l) : '\n' ∉ fixPipes l := by
  unfold fixPipes
  simp only [List.mem_map, not_exists]
  rintro c ⟨hc, he⟩
  by_cases hp : c = '|'
  · simp [hp] at he
  · simp [hp] at he
    exact h (he ▸ hc)

/-- The O-before-digit fix emits only the digit 0 or untouched characters. -/
theorem newline_not_mem_fixOBefore {l : List Char} (h : '\n' ∉ l) : '\n' ∉ fixOBefore l := by
  induction l with
  | nil => simp [fixOBefore]
  | cons c rest ih =>
    cases rest with
    | nil =>
      simpa [fixOBefore] using h
    | cons c2 rest2 =>
      simp only [List.mem_cons, not_or] at h
      simp only [fixOBefore, List.mem_cons, not_or]
      refine ⟨?_, ?_⟩
      · intro he
        split at he
        · exact absurd he (by decide)
        · exact h.1 he
      · exact ih (by simp [List.mem_cons, h.2.1, h.2.2])

/-- The O-after-digit scanner emits only the digit 0 or untouched
characters. -/
theorem newline_not_mem_fixOAfterAux {l : List Char} (p : Char) (h : '\n' ∉ l) :
    '\n' ∉ fixOAfterAux p l := by
  induction l generalizing p with
  | nil => simp [fixOAfterAux]
  | cons c rest ih =>
    simp only [List.mem_cons, not_or] at h
    simp only [fixOAfterAux, List.mem_cons, not_or]
    refine ⟨?_, ih c h.2⟩
    intro he
    split at he
    · exact absurd he (by decide)
    · exact h.1 he

/-- The O-after-digit fix preserves newline-freeness. -/
theorem newline_not_mem_fixOAfter {l : List Char} (h : '\n' ∉ l) : '\n' ∉ fixOAfter l := by
  cases l with
  | nil => simp [fixOAfter]
  | cons c rest =>
    simp only [List.mem_cons, not_or] at h
    simp only [fixOAfter, List.mem_cons, not_or]
    exact ⟨h.1, newline_not_mem_fixOAfterAux c h.2⟩

/-- The cleaned OCR text never contains a newline: whitespace collapsing
replaces every newline with a space and the confusion fixes only introduce
`I` and `0`. -/
theorem newline_not_mem_cleanExtractedText (text : String) :
    '\n' ∉ (cleanExtractedText text).data := by
  unfold cleanExtractedText
  exact newline_not_mem_fixOAfter (newline_not_mem_fixOBefore
    (newline_not_mem_fixPipes fun hm =>
      newline_not_mem_collapseWsAux false text.data (mem_of_mem_pyStrip hm)))

/-- Splitting a newline-free character list yields the list itself as the
single line. -/
theorem splitLines_eq_single {l : List Char} (h : '\n' ∉ l) : splitLines l = [l] := by
  induction l with
  | nil => rfl
  | cons c rest ih =>
    simp only [List.mem_cons, not_or] at h
    simp only [splitLines, ih h.2]
    have hc : ¬c = '\n' := fun he => h.1 he.symm
    simp [hc]

/-- A `filterMap` whose function is gated by a condition equals filtering
first and then mapping. -/
theorem filterMap_ite_eq_filter_filterMap {α β : Type} (p : α → Prop) [DecidablePred p]
    (g : α → Option β) (l : List α) :
    (l.filterMap fun a => if p a then g a else none)
      = (l.filter fun a => decide (p a)).filterMap g := by
  induction l with
  | nil => rfl
  | cons a rest ih =>
    by_cases hp : p a
    · simp [List.filterMap_cons, hp, ih]
    · simp [List.filterMap_cons, hp, ih]

/-- Claim C4: for every successful OCR extraction the returned text contains
no newline character (kept tokens are joined with single spaces and all
whitespace runs are collapsed), so the line parser's newline split yields
exactly one line and the whole text parses to at most one line-item
candidate. -/
theorem ocr_text_single_line (toks : List OcrToken) (ms : Int) :
    '\n' ∉ ((extractText (Except.ok toks) ms).text).data
    ∧ splitLines ((extractText (Except.ok toks) ms).text).data
        = [((extractText (Except.ok toks) ms).text).data]
    ∧ (parseReceiptItems (extractText (Except.ok toks) ms).text).length ≤ 1 := by
  have htext : (extractText (Except.ok toks) ms).text
      = cleanExtractedText (filterLowConfidenceText toks) := rfl
  have h1 : '\n' ∉ ((extractText (Except.ok toks) ms).text).data := by
    rw [htext]; exact newline_not_mem_cleanExtractedText _
  have h2 := splitLines_eq_single h1
  refine ⟨h1, h2, ?_⟩
  unfold parseReceiptItems
  rw [h2]
  cases hp : parseLine ((extractText (Except.ok toks) ms).text).data <;>
    simp [List.filterMap, hp]

/-- Claim C5: the text extractor never raises — it is a total function of
its inputs, and on any internal error (the `.error` outcome of decoding/OCR)
it returns empty text with confidence 0.0 and the elapsed time, so
downstream stages always receive data. -/
theorem extractText_error_degrades (e : String) (ms : Int) :
    extractText (Except.error e) ms
      = { text := "", confidence := 0, processingTimeMs := ms } :=
  rfl

/-- Claim C6: in a successful extraction the reported confidence is the mean
of all strictly positive per-token confidences divided by 100 (0 when there
is none) — exactly: `100·confidence·count = sum` over the positive tokens —
while the returned text is built only from tokens whose confidence strictly
exceeds 30; the mean thus ranges over all positive-confidence tokens, not
just the kept ones. -/
theorem extractText_confidence_mean (toks : List OcrToken) (ms : Int) :
    (extractText (Except.ok toks) ms).confidence
      = (if ((toks.map OcrToken.conf).filter fun c => decide (0 < c)) = [] then 0
         else ((toks.map OcrToken.conf).filter fun c => decide (0 < c)).sum
              / (((toks.map OcrToken.conf).filter fun c => decide (0 < c)).length : ℚ)) / 100
    ∧ 100 * (extractText (Except.ok toks) ms).confidence
        * (((toks.map OcrToken.conf).filter fun c => decide (0 < c)).length : ℚ)
      = ((toks.map OcrToken.conf).filter fun c => decide (0 < c)).sum
    ∧ (extractText (Except.ok toks) ms).text
      = cleanExtractedText (String.intercalate " "
          ((toks.filter fun t => decide (30 < t.conf)).filterMap fun t =>
            if (pyStrip t.text.data).isEmpty then none
            else some (String.mk (pyStrip t.text.data)))) := by
  have hconf : (extractText (Except.ok toks) ms).confidence
      = (if ((toks.map OcrToken.conf).filter fun c => decide (0 < c)).isEmpty then 0
         else ((toks.map OcrToken.conf).filter fun c => decide (0 < c)).sum
              / (((toks.map OcrToken.conf).filter fun c => decide (0 < c)).length : ℚ)) / 100 :=
    rfl
  refine ⟨?_, ?_, ?_⟩
  · by_cases hemp : ((toks.map OcrToken.conf).filter fun c => decide (0 < c)) = []
    · rw [hconf, if_pos (by rw [List.isEmpty_iff]; exact hemp), if_pos hemp]
    · rw [hconf, if_neg (by rw [List.isEmpty_iff]; exact hemp), if_neg hemp]
  · rw [hconf]
    rcases he : ((toks.map OcrToken.conf).filter fun c => decide (0 < c)) with _ | ⟨q, qs⟩
    · simp
    · rw [← he]
      have hlen : (((toks.map OcrToken.conf).filter fun c => decide (0 < c)).length : ℚ) ≠ 0 := by
        have hn : ((toks.map OcrToken.conf).filter fun c => decide (0 < c)).length ≠ 0 := by
          rw [he]; simp
        exact_mod_cast hn
      rw [if_neg (by rw [List.isEmpty_iff, he]; simp)]
      field_simp
      ring
  · have htext : (extractText (Except.ok toks) ms).text
        = cleanExtractedText (filterLowConfidenceText toks) := rfl
    rw [htext]
    unfold filterLowConfidenceText
    dsimp only
    rw [filterMap_ite_eq_filter_filterMap (fun t => 30 < t.conf)
      (fun t => if (pyStrip t.text.data).isEmpty then none
                else some (String.mk (pyStrip t.text.data))) toks]

unseal Rat.add Rat.mul Rat.inv in
/-- Claim C7: `_extract_item_info` tries the patterns in priority order —
`<qty> <name> <price>` at confidence 0.9, then `<name> <price>` or
`<name> $<price>` at confidence 0.8, then any non-numeric line longer than 3
characters as a name-only candidate at confidence 0.5 with no price — and on
the line `"2 BANANAS 1.99"` yields quantity `"2"`, name `"BANANAS"`, price
1.99 and confidence 0.9, categorized as `"fruits"`. -/
theorem extractItemInfo_priority :
    (∀ (line q n : List Char) (p : ℚ), matchQtyNamePrice line = some (q, n, p) →
      extractItemInfo line
        = some { quantity := some (String.mk q), name := String.mk (pyStrip n),
                 price := some p, confidence := 9/10 })
    ∧ (∀ (line n : List Char) (p : ℚ), matchQtyNamePrice line = none →
        matchNamePrice line = some (n, p) →
      extractItemInfo line
        = some { quantity := none, name := String.mk (pyStrip n),
                 price := some p, confidence := 8/10 })
    ∧ (∀ (line n : List Char) (p : ℚ), matchQtyNamePrice line = none →
        matchNamePrice line = none → matchNameDollarPrice line = some (n, p) →
      extractItemInfo line
        = some { quantity := none, name := String.mk (pyStrip n),
                 price := some p, confidence := 8/10 })
    ∧ (∀ line : List Char, matchQtyNamePrice line = none →
        matchNamePrice line = none → matchNameDollarPrice line = none →
        3 < line.length → pyIsDigitStr line = false →
      extractItemInfo line
        = some { quantity := none, name := String.mk (pyStrip line),
                 price := none, confidence := 1/2 })
    ∧ extractItemInfo "2 BANANAS 1.99".data
        = some { quantity := some "2", name := "BANANAS",
                 price := some (199/100), confidence := 9/10 }
    ∧ categorizeItem "BANANAS" = "fruits"
    ∧ parseReceiptItems "2 BANANAS 1.99"
        = [{ name := "BANANAS", quantity := some "2", price := some (199/100),
             category := "fruits", confidence := 9/10, estimatedExpiryDate := none }] := by
  refine ⟨?_, ?_, ?_, ?_, by decide, by decide, by decide⟩
  · intro line q n p h1
    simp [extractItemInfo, h1]
  · intro line n p h1 h2
    simp [extractItemInfo, h1, h2]
  · intro line n p h1 h2 h3
    simp [extractItemInfo, h1, h2, h3]
  · intro line h1 h2 h3 h4 h5
    simp [extractItemInfo, h1, h2, h3, h4, h5]

unseal Rat.add Rat.mul Rat.inv in
/-- Witness for C7: the hypotheses of the pattern-priority branches hold at
the concrete line `"2 BANANAS 1.99"`. -/
theorem extractItemInfo_priority_witness :
    matchQtyNamePrice "2 BANANAS 1.99".data
      = some ("2".data, "BANANAS".data, (199/100 : ℚ))
    ∧ extractItemInfo "2 BANANAS 1.99".data
      = some { quantity := some (String.mk "2".data),
               name := String.mk (pyStrip "BANANAS".data),
               price := some ((199/100 : ℚ)), confidence := 9/10 } :=
  ⟨by decide, extractItemInfo_priority.1 "2 BANANAS 1.99".data "2".data "BANANAS".data
      (199/100) (by decide)⟩

/-- Claim C10: both categorizers lower-case the name, scan their ordered
category→keyword tables and return the first matching category (`find?` on
the table), defaulting to `"pantry"`; the output always lies in the closed
set {dairy, meat, vegetables, fruits, bakery, pantry}, and the function is
deterministic — equal inputs give equal outputs. -/
theorem categorizeItem_closed_set :
    (∀ name : String, categorizeItem name
        ∈ (["dairy", "meat", "vegetables", "fruits", "bakery", "pantry"] : List String))
    ∧ (∀ name : String, determineCategory name
        ∈ (["dairy", "meat", "vegetables", "fruits", "bakery", "pantry"] : List String))
    ∧ (∀ (name : String) (cat : String) (kws : List String),
        categoriesTable.find?
            (fun ck => ck.2.any fun kw => containsSub kw.data (toLowerList name.data))
          = some (cat, kws) →
        categorizeItem name = cat)
    ∧ (∀ name : String,
        categoriesTable.find?
            (fun ck => ck.2.any fun kw => containsSub kw.data (toLowerList name.data))
          = none →
        categorizeItem name = "pantry")
    ∧ (∀ n1 n2 : String, n1 = n2 → categorizeItem n1 = categorizeItem n2) := by
  refine ⟨?_, ?_, ?_, ?_, ?_⟩
  · intro name
    unfold categorizeItem
    rcases h : categoriesTable.find?
        (fun ck => ck.2.any fun kw => containsSub kw.data (toLowerList name.data))
      with _ | ⟨cat, kws⟩
    · simp [h]
    · have hm := List.mem_of_find?_eq_some h
      fin_cases hm <;> simp [h]
  · intro name
    unfold determineCategory
    rcases h : mlCategoryKeywords.find?
        (fun ck => ck.2.any fun kw => containsSub kw.data (toLowerList name.data))
      with _ | ⟨cat, kws⟩
    · simp [h]
    · have hm := List.mem_of_find?_eq_some h
      fin_cases hm <;> simp [h]
  · intro name cat kws h
    unfold categorizeItem
    simp [h]
  · intro name h
    unfold categorizeItem
    simp [h]
  · intro n1 n2 h
    rw [h]

/-- Witness for C10: at the concrete name `"MILK"`, the first matching table
entry is dairy, so the categorizer returns `"dairy"`, a member of the closed
set. -/
theorem categorizeItem_closed_set_witness :
    categoriesTable.find?
        (fun ck => ck.2.any fun kw => containsSub kw.data (toLowerList "MILK".data))
      = some ("dairy", ["milk", "cheese", "yogurt", "butter", "cream"])
    ∧ categorizeItem "MILK" = "dairy"
    ∧ categorizeItem "MILK"
        ∈ (["dairy", "meat", "vegetables", "fruits", "bakery", "pantry"] : List String) :=
  ⟨by decide,
   categorizeItem_closed_set.2.2.1 "MILK" "dairy"
     ["milk", "cheese", "yogurt", "butter", "cream"] (by decide),
   categorizeItem_closed_set.1 "MILK"⟩

/-- Claim C8: the expiry predictor's confidence equals
`min 1 (0.5 + 0.2·[category known] + 0.3·[exact name key] + 0.1·[brand
supplied] + 0.2·[model present])`; it always lies in [0, 1], and with all
four signals present it is exactly 1 (the cap is reached). -/
theorem calculateConfidence_formula :
    (∀ (modelPresent : Bool) (productName category : String) (brand : Option String)
        (normalizedName : String),
      calculateConfidence modelPresent productName category brand normalizedName
        = min 1 ((1 : ℚ)/2
            + (if (shelfLifeDatabase.lookup category).isSome then (2 : ℚ)/10 else 0)
            + (if (((shelfLifeDatabase.lookup category).getD []).lookup normalizedName).isSome
               then (3 : ℚ)/10 else 0)
            + (if brand.elim false (fun b => b ≠ "") then (1 : ℚ)/10 else 0)
            + (if modelPresent then (2 : ℚ)/10 else 0)))
    ∧ (∀ (modelPresent : Bool) (productName category : String) (brand : Option String)
        (normalizedName : String),
      0 ≤ calculateConfidence modelPresent productName category brand normalizedName
      ∧ calculateConfidence modelPresent productName category brand normalizedName ≤ 1)
    ∧ (∀ (modelPresent : Bool) (productName category : String) (brand : Option String)
        (normalizedName : String),
      (shelfLifeDatabase.lookup category).isSome →
      (((shelfLifeDatabase.lookup category).getD []).lookup normalizedName).isSome →
      brand.elim false (fun b => b ≠ "") = true →
      modelPresent = true →
      calculateConfidence modelPresent productName category brand normalizedName = 1) := by
  have hform : ∀ (modelPresent : Bool) (productName category : String) (brand : Option String)
      (normalizedName : String),
      calculateConfidence modelPresent productName category brand normalizedName
        = min 1 ((1 : ℚ)/2
            + (if (shelfLifeDatabase.lookup category).isSome then (2 : ℚ)/10 else 0)
            + (if (((shelfLifeDatabase.lookup category).getD []).lookup normalizedName).isSome
               then (3 : ℚ)/10 else 0)
            + (if brand.elim false (fun b => b ≠ "") then (1 : ℚ)/10 else 0)
            + (if modelPresent then (2 : ℚ)/10 else 0)) := by
    intro modelPresent productName category brand normalizedName
    unfold calculateConfidence
    rcases h1 : (shelfLifeDatabase.lookup category).isSome <;>
      rcases h2 : (((shelfLifeDatabase.lookup category).getD []).lookup normalizedName).isSome <;>
      rcases h3 : brand.elim false (fun b => b ≠ "") <;>
      rcases h4 : modelPresent <;>
      simp [h1, h2, h3]
  refine ⟨hform, ?_, ?_⟩
  · intro modelPresent productName category brand normalizedName
    rw [hform]
    constructor
    · refine le_min (by norm_num) ?_
      split_ifs <;> norm_num
    · exact min_le_left _ _
  · intro modelPresent productName category brand normalizedName h1 h2 h3 h4
    rw [hform, h1, h2, h3, h4]
    norm_num

/-- Witness for C8: all four signals hold at model present, category
`"dairy"`, normalized name `"milk"`, brand `"horizon"` — the confidence is
exactly 1. -/
theorem calculateConfidence_formula_witness :
    (shelfLifeDatabase.lookup "dairy").isSome = true
    ∧ (((shelfLifeDatabase.lookup "dairy").getD []).lookup "milk").isSome = true
    ∧ (some "horizon").elim false (fun b => b ≠ "") = true
    ∧ calculateConfidence true "milk" "dairy" (some "horizon") "milk" = 1 :=
  ⟨by decide, by decide, by decide,
   calculateConfidence_formula.2.2 true "milk" "dairy" (some "horizon") "milk"
     (by decide) (by decide) (by decide) rfl⟩

/-- Claim C9: the shelf-life lookup tries an exact key match in the (lowered
category's) reference table first, then a substring match between the
normalized name and a table key in either direction, then the fixed
per-category/per-storage default table; for name `"milk"`, category dairy
and storage `"refrigerator"` the exact key gives 7 days, and the prediction
for the parsed name `"MILK"` with category `"dairy"` is
`purchase_date + 7` days. -/
theorem getShelfLife_lookup_order :
    (∀ (normalizedName category storageLocation : String)
        (shelfLife : List (String × Int)),
      ((shelfLifeDatabase.lookup (lowerStr category)).getD []).lookup normalizedName
          = some shelfLife →
      getShelfLifeFromDatabase normalizedName category storageLocation
        = (shelfLife.lookup storageLocation).getD 7)
    ∧ (∀ (normalizedName category storageLocation : String)
        (key : String) (shelfLife : List (String × Int)),
      ((shelfLifeDatabase.lookup (lowerStr category)).getD []).lookup normalizedName = none →
      ((shelfLifeDatabase.lookup (lowerStr category)).getD []).find?
          (fun p => containsSub p.1.data normalizedName.data
            || containsSub normalizedName.data p.1.data)
        = some (key, shelfLife) →
      getShelfLifeFromDatabase normalizedName category storageLocation
        = (shelfLife.lookup storageLocation).getD 7)
    ∧ (∀ (normalizedName category storageLocation : String),
      ((shelfLifeDatabase.lookup (lowerStr category)).getD []).lookup normalizedName = none →
      ((shelfLifeDatabase.lookup (lowerStr category)).getD []).find?
          (fun p => containsSub p.1.data normalizedName.data
            || containsSub normalizedName.data p.1.data)
        = none →
      getShelfLifeFromDatabase normalizedName category storageLocation
        = (((shelfLifeDefaults.lookup category).getD []).lookup storageLocation).getD 7)
    ∧ getShelfLifeFromDatabase "milk" "dairy" "refrigerator" = 7
    ∧ (∀ purchase now : Int,
      (predictExpiry false now "MILK" (some "dairy") none (some purchase)
          "refrigerator").predictedExpiryDate
        = purchase + 7) := by
  refine ⟨?_, ?_, ?_, by decide, ?_⟩
  · intro normalizedName category storageLocation shelfLife h
    unfold getShelfLifeFromDatabase
    simp [h]
  · intro normalizedName category storageLocation key shelfLife h1 h2
    unfold getShelfLifeFromDatabase
    simp [h1, h2]
  · intro normalizedName category storageLocation h1 h2
    unfold getShelfLifeFromDatabase
    simp [h1, h2]
  · intro purchase now
    have hbase : getShelfLifeFromDatabase (normalizeProductName "MILK") "dairy"
        "refrigerator" = 7 := by decide
    simp [predictExpiry, applyBrandAdjustments, hbase]

/-- Witness for C9: the exact-match hypothesis holds at `"milk"` / dairy /
refrigerator, giving 7 days. -/
theorem getShelfLife_lookup_order_witness :
    ((shelfLifeDatabase.lookup (lowerStr "dairy")).getD []).lookup "milk"
        = some milkShelfLife
    ∧ getShelfLifeFromDatabase "milk" "dairy" "refrigerator"
        = ((milkShelfLife.lookup "refrigerator").getD 7) :=
  ⟨by decide,
   getShelfLife_lookup_order.1 "milk" "dairy" "refrigerator" milkShelfLife (by decide)⟩

/-- Claim C1 (counterexample): for a receipt whose image cannot be decoded
(the OCR stage's `try` block fails internally), the run raises nothing to
the orchestrator: the receipt ends `completed` — not `failed` as claimed —
with zero persisted items. -/
theorem decodeError_counterexample :
    (processReceiptAsync decodeFailEnv none pendingReceiptState).receipt.map
        ReceiptRec.processingStatus = some Status.completed
    ∧ (processReceiptAsync decodeFailEnv none pendingReceiptState).items = []
    ∧ Status.completed ≠ Status.failed := by
  decide

/-- Claim C1 (amended): for every receipt whose image cannot be decoded, no
exception reaches the orchestrator — `extract_text` swallows the decode
error and returns empty text with confidence 0.0, the parser yields zero
items, and the receipt ends `completed` with zero InventoryItems persisted
for that run. -/
theorem decodeError_degrades_to_completed (env : PipelineEnv) (s0 : DbState)
    (r : ReceiptRec) (e : String)
    (henv : env.ocrOutcome = Except.error e) (hr : s0.receipt = some r) :
    extractText env.ocrOutcome env.elapsedMs
      = { text := "", confidence := 0, processingTimeMs := env.elapsedMs }
    ∧ (processReceiptAsync env none s0).receipt.map ReceiptRec.processingStatus
        = some Status.completed
    ∧ (processReceiptAsync env none s0).items = s0.items := by
  have hocr : extractText env.ocrOutcome env.elapsedMs
      = { text := "", confidence := 0, processingTimeMs := env.elapsedMs } := by
    rw [henv]; rfl
  have hparse : parseReceiptItems (extractText env.ocrOutcome env.elapsedMs).text = [] := by
    rw [hocr]; rfl
  refine ⟨hocr, ?_, ?_⟩ <;>
    simp [processReceiptAsync, updateProcessingStatus, updateOcrText, saveParsingResults,
      enhanceItems, hr, hparse]

/-- Witness for the amended C1 at the concrete undecodable-image scenario. -/
theorem decodeError_degrades_witness :
    decodeFailEnv.ocrOutcome = Except.error "cvtColor: src is None"
    ∧ pendingReceiptState.receipt = some pendingReceiptRow
    ∧ (extractText decodeFailEnv.ocrOutcome decodeFailEnv.elapsedMs
        = { text := "", confidence := 0, processingTimeMs := decodeFailEnv.elapsedMs }
      ∧ (processReceiptAsync decodeFailEnv none pendingReceiptState).receipt.map
          ReceiptRec.processingStatus = some Status.completed
      ∧ (processReceiptAsync decodeFailEnv none pendingReceiptState).items
          = pendingReceiptState.items) :=
  ⟨rfl, rfl,
   decodeError_degrades_to_completed decodeFailEnv pendingReceiptState pendingReceiptRow
     "cvtColor: src is None" rfl rfl⟩

/-- Claim C2 (counterexample): a reprocess request on a `completed` receipt
re-enters the machine directly at `processing` — the orchestrator never
writes `pending`, contradicting the claimed pending→processing re-entry. -/
theorem reprocess_skips_pending :
    completedReceiptState.receipt.map ReceiptRec.processingStatus = some Status.completed
    ∧ (processReceiptAsync reprocessEnv none completedReceiptState).statusWrites
        = [Status.processing, Status.completed]
    ∧ Status.pending ∉ (processReceiptAsync reprocessEnv none completedReceiptState).statusWrites := by
  decide

/-- Claim C2 (amended): in every run the orchestrator's status writes are
exactly `[]` (missing receipt row), `[processing, completed]` or
`[processing, failed]`, and it never writes `pending`; hence within a run
the status only advances processing → {completed, failed}, a terminal write
is always preceded by a `processing` write of the same run (so
failed→completed or completed→pending cannot occur without a new run, i.e.
an explicit reprocess call), and a reprocess re-enters directly at
`processing` rather than at `pending`. -/
theorem status_writes_per_run (env : PipelineEnv) (fault : Option FaultPoint)
    (s0 : DbState) :
    ∃ w, (processReceiptAsync env fault s0).statusWrites = s0.statusWrites ++ w
      ∧ (w = [] ∨ w = [Status.processing, Status.completed]
          ∨ w = [Status.processing, Status.failed])
      ∧ Status.pending ∉ w := by
  rcases hs : s0.receipt with _ | r
  · refine ⟨[], ?_, Or.inl rfl, by simp⟩
    simp [processReceiptAsync, updateProcessingStatus, hs]
  · rcases fault with _ | f
    · refine ⟨[Status.processing, Status.completed], ?_, Or.inr (Or.inl rfl), by decide⟩
      simp [processReceiptAsync, updateProcessingStatus, updateOcrText,
        saveParsingResults, failRun, hs]
    · cases f <;>
        refine ⟨[Status.processing, Status.failed], ?_, Or.inr (Or.inr rfl), by decide⟩ <;>
        simp [processReceiptAsync, updateProcessingStatus, updateOcrText,
          saveParsingResults, failRun, hs]

/-- Claim C3 (counterexample): the items write and the status write are
separate transactions, so an exception during the final `completed` status
update — after `save_parsing_results` has already committed — leaves the
run's InventoryItems persisted while the receipt is marked `failed`: a run
can leave persisted items without an owning completed receipt. -/
theorem save_status_split_counterexample :
    (processReceiptAsync milkEnv (some FaultPoint.updCompleted) datedReceiptState).items ≠ []
    ∧ (processReceiptAsync milkEnv (some FaultPoint.updCompleted)
        datedReceiptState).receipt.map ReceiptRec.processingStatus = some Status.failed := by
  decide

/-- Claim C3 (amended): an unhandled exception at any stage up to and
including the items write makes the orchestrator set the receipt `failed`
and stamp processed-at, with no InventoryItems persisted from the run (the
items commit is all-or-nothing); but the items write and the status write
are separate transactions, so a failure of the final status update can
still leave the run's items persisted with a `failed` receipt. -/
theorem stage_exception_all_or_nothing (env : PipelineEnv) (f : FaultPoint)
    (s0 : DbState) (r : ReceiptRec)
    (hr : s0.receipt = some r) (hf : f ≠ FaultPoint.updCompleted) :
    (processReceiptAsync env (some f) s0).items = s0.items
    ∧ (processReceiptAsync env (some f) s0).receipt.map ReceiptRec.processingStatus
        = some Status.failed
    ∧ (processReceiptAsync env (some f) s0).receipt.map ReceiptRec.processedAt
        = some (some env.now) := by
  cases f
  case updCompleted => exact absurd rfl hf
  all_goals
    refine ⟨?_, ?_, ?_⟩ <;>
      simp [processReceiptAsync, updateProcessingStatus, updateOcrText, failRun, hr]

/-- Witness for the amended C3: a fault at the save step of the concrete
one-item run leaves the database without new items and the receipt
`failed`. -/
theorem stage_exception_all_or_nothing_witness :
    datedReceiptState.receipt
        = some { pendingReceiptRow with storeName := some "Safeway", receiptDate := some 100 }
    ∧ FaultPoint.save ≠ FaultPoint.updCompleted
    ∧ ((processReceiptAsync milkEnv (some FaultPoint.save) datedReceiptState).items
          = datedReceiptState.items
      ∧ (processReceiptAsync milkEnv (some FaultPoint.save) datedReceiptState).receipt.map
          ReceiptRec.processingStatus = some Status.failed
      ∧ (processReceiptAsync milkEnv (some FaultPoint.save) datedReceiptState).receipt.map
          ReceiptRec.processedAt = some (some milkEnv.now)) :=
  ⟨rfl, by decide,
   stage_exception_all_or_nothing milkEnv FaultPoint.save datedReceiptState
     { pendingReceiptRow with storeName := some "Safeway", receiptDate := some 100 }
     rfl (by decide)⟩
